import Mathlib

/-!
Verification of the job-orchestration module `apps/grid.py` of the jcvi
repository: shallow embedding of its data model and operations, plus
theorems settling the specification claims about it.

Conventions of the embedding:
* Python strings are Lean `String`s; Python `x in s` substring tests are
  `hasSub`; Python truthiness of optional fields is made explicit
  (`None`/`0`/`""` are falsy).
* Fallible code (assertions, uncaught exceptions) is embedded as `Except`.
* The `multiprocessing` producer-consumer pipeline (`work`/`write`) is
  embedded as a nondeterministic labelled transition system over explicit
  queue states; file output is the list of lines written.
* Filesystem effects (`backup`, file writes) are embedded as updates to an
  abstract map from path to content.
-/

namespace JcviGrid

/-- Python substring containment over char lists: `needle in haystack`. -/
def hasSub (p : List Char) : List Char → Bool
  | [] => p.isEmpty
  | c :: rest => p.isPrefixOf (c :: rest) || hasSub p rest

/-- Python substring containment over strings. -/
def strIn (p s : String) : Bool := hasSub p.data s.data

/-- Python truthiness of an optional integer field (`None` and `0` falsy). -/
def truthyNat : Option Nat → Bool
  | none => false
  | some n => n != 0

/-- Python truthiness of an optional `int` field (`None` and `0` falsy). -/
def truthyInt : Option Int → Bool
  | none => false
  | some n => n != 0

/-- Python truthiness of an optional string field (`None` and `""` falsy). -/
def truthyStr : Option String → Bool
  | none => false
  | some s => s != ""

/-- Model of Python `str.strip()`: drop whitespace from both ends. -/
def pyStrip (s : String) : String :=
  String.mk (((s.data.dropWhile Char.isWhitespace).reverse.dropWhile
      Char.isWhitespace).reverse)

/-- Model of Python `os.path.join(a, b)` for the cases arising here. -/
def pathJoin (a b : String) : String :=
  if b.startsWith "/" then b
  else if a = "" then b
  else if a.endsWith "/" then a ++ b
  else a ++ "/" ++ b

/-! ### Job-id extraction (`GridProcess.pat1` / `pat2`, lines 169-170)

Both source regexes have the shape: a literal piece, a greedy starred
character class forming the captured group, then a literal space:
`pat1 = "Your job (?P<id>[0-9]*) "` and
`pat2 = "Your job-array (?P<id>\S*) "`.
`CapPat` records that shape; `reSearch` implements `re.search` for it:
leftmost match position, greedy star with backtracking before the
trailing literal, returning the captured group. -/

structure CapPat where
  pre : List Char
  cls : Char → Bool
  post : Char

/-- Backtracking for the greedy starred class: try the candidate capture
length `k` (starting from the maximal run), requiring the next char to be
the trailing literal, shrinking on failure. -/
def tryFrom (post : Char) (s : List Char) : Nat → Option (List Char)
  | 0 => if s.head? = some post then some [] else none
  | k + 1 =>
    if (s.drop (k + 1)).head? = some post then some (s.take (k + 1))
    else tryFrom post s k

/-- Try to match the pattern anchored at the head of `s`; return the
captured group on success. -/
def matchAt (pat : CapPat) (s : List Char) : Option (List Char) :=
  if pat.pre.isPrefixOf s then
    let rest := s.drop pat.pre.length
    tryFrom pat.post rest ((rest.takeWhile pat.cls).length)
  else none

/-- `re.search`: try every start position, leftmost first. -/
def reSearch (pat : CapPat) : List Char → Option (List Char)
  | [] => matchAt pat []
  | c :: rest =>
    match matchAt pat (c :: rest) with
    | some r => some r
    | none => reSearch pat rest

/-- Embedding of `GridProcess.pat1 = re.compile(r"Your job (?P<id>[0-9]*) ")`. -/
def pat1 : CapPat := ⟨"Your job ".data, Char.isDigit, ' '⟩

/-- Embedding of `GridProcess.pat2 = re.compile(r"Your job-array (?P<id>\S*) ")`. -/
def pat2 : CapPat := ⟨"Your job-array ".data, fun c => !c.isWhitespace, ' '⟩

/-- Line 190: `self.pat = self.pat2 if arr else self.pat1`. -/
def selectedPat (isArr : Bool) : CapPat := if isArr then pat2 else pat1

/-- Search the submission output with the pattern selected by the array
flag, as `re.search(self.pat, output)` does in `start()`. -/
def searchJobid (isArr : Bool) (output : String) : Option String :=
  (reSearch (selectedPat isArr) output.data).map String.mk

/-- Embedding of the job-id assignment in `GridProcess.start()` (lines
249-252): empty (after strip) output assigns the sentinel `"-1"`; otherwise
the selected pattern is searched, and a failed search is the uncaught
`AttributeError` from `None.group`, embedded as `Except.error`. -/
def assignJobid (isArr : Bool) (output : String) : Except Unit String :=
  if pyStrip output != "" then
    match searchJobid isArr output with
    | some i => Except.ok i
    | none => Except.error ()
  else Except.ok "-1"

/-! ### GridProcess (lines 167-264) -/

/-- The single-quote character, written by code point to keep source tidy. -/
def squote : Char := Char.ofNat 39

/-- Fields of `GridProcess` after `__init__` (lines 172-192). Numeric
fields that Python treats as possibly-`None` are `Option`; `outfile` and
`errfile` are plain strings because `__init__` coalesces `None` to `""`. -/
structure GridProcess where
  cmd : String
  jobid : String
  queue : String
  threaded : Option Nat
  infile : Option String
  outfile : String
  errfile : String
  arr : Option Int
  concurrency : Option Nat
  outdir : String
  name : Option String
  pcode : String
  hold_jid : Option String
deriving DecidableEq

/-- Construction `GridProcess(cmd, outfile=outfile)` with all other
parameters defaulted as in `__init__`. -/
def gpNew (cmd : String) (outfile : Option String) : GridProcess :=
  { cmd := cmd, jobid := "", queue := "default", threaded := none,
    infile := none, outfile := outfile.getD "", errfile := "", arr := none,
    concurrency := none, outdir := ".", name := none, pcode := "0372",
    hold_jid := none }

/-- Line 200: the command contains a shell pipe / and / or operator. -/
def hasShellOp (cmd : String) : Bool :=
  strIn "|" cmd || strIn "&&" cmd || strIn "||" cmd

/-- Line 201: `quote = "\"" if "'" in self.cmd else "'"`. -/
def chooseQuote (cmd : String) : Char :=
  if strIn (String.mk [squote]) cmd then '"' else squote

/-- Lines 200-202 of `build()`: wrap a command containing shell operators
in `sh -c <quote><cmd><quote>`. -/
def shellWrap (cmd : String) : String :=
  if hasShellOp cmd then
    "sh -c " ++ String.mk [chooseQuote cmd] ++ cmd ++ String.mk [chooseQuote cmd]
  else cmd

/-- Line 206-207: non-default queue flag. -/
def queuePart (g : GridProcess) : String :=
  if g.queue != "default" then " -l " ++ g.queue else ""

/-- Lines 208-209: thread-reservation flag (truthy test, `0` falsy). -/
def threadedPart (g : GridProcess) : String :=
  match g.threaded with
  | some n => if n != 0 then " -pe threaded " ++ toString n else ""
  | none => ""

/-- Lines 213-214: concurrency-throttle flag. -/
def concPart (g : GridProcess) : String :=
  match g.concurrency with
  | some n => if n != 0 then " -tc " ++ toString n else ""
  | none => ""

/-- Lines 215-216: display-name flag. -/
def namePart (g : GridProcess) : String :=
  match g.name with
  | some s => if s != "" then " -N \"" ++ s ++ "\"" else ""
  | none => ""

/-- Lines 217-219: predecessor-dependency flag; the flag name depends on
whether this is an array submission. -/
def holdPart (g : GridProcess) : String :=
  match g.hold_jid with
  | some h =>
    if h != "" then
      " " ++ (if truthyInt g.arr then "-hold_jid_ad" else "-hold_jid") ++ " " ++ h
    else ""
  | none => ""

/-- Line 227: `redirect_same = outfile and (outfile == errfile)`. -/
def redirectSame (g : GridProcess) : Bool :=
  g.outfile != "" && g.outfile == g.errfile

/-- Lines 229-230: stdin redirection flag. -/
def infilePart (g : GridProcess) : String :=
  match g.infile with
  | some i => if i != "" then " -i " ++ i else ""
  | none => ""

/-- Lines 231-233: stdout redirection flag (path rewritten under outdir). -/
def outfilePart (g : GridProcess) : String :=
  if g.outfile != "" then " -o " ++ pathJoin g.outdir g.outfile else ""

/-- Lines 234-239: stderr redirection: combined-stream flag when equal to
stdout, separate flag otherwise. -/
def errfilePart (g : GridProcess) : String :=
  if g.errfile != "" then
    if redirectSame g then " -j y"
    else " -e " ++ pathJoin g.outdir g.errfile
  else ""

/-- The full qsub flag string of `build()`, given the (possibly empty)
array flag; the `+=` chain of the source is the concatenation of the
independent per-flag segments, in source order. -/
def qsubOf (g : GridProcess) (arrPart : String) : String :=
  "qsub -P " ++ g.pcode ++ " -cwd" ++ queuePart g ++ threadedPart g
    ++ arrPart ++ concPart g ++ namePart g ++ holdPart g ++ infilePart g
    ++ outfilePart g ++ errfilePart g

/-- The successful result of `build()`: the mutated record (`cmd` replaced
by its shell-wrapped form, `outfile`/`errfile` rewritten under `outdir`)
and the returned submission command string. The `mkdir(outdir)` call is a
filesystem side effect with no influence on the result. -/
def buildOk (g : GridProcess) (arrPart : String) : GridProcess × String :=
  let cmd1 := shellWrap g.cmd
  ({ g with
      cmd := cmd1,
      outfile := if g.outfile != "" then pathJoin g.outdir g.outfile else g.outfile,
      errfile :=
        if g.errfile != "" && !redirectSame g then pathJoin g.outdir g.errfile
        else g.errfile },
    qsubOf g arrPart ++ " " ++ cmd1)

/-- Embedding of `GridProcess.build()` (lines 198-242). The only fallible
step is the array-size assertion at line 211, reached only when `arr` is
truthy (`None` and `0` are falsy). -/
def GridProcess.build (g : GridProcess) : Except String (GridProcess × String) :=
  match g.arr with
  | some a =>
    if a != 0 then
      if 1 ≤ a ∧ a < 100000 then Except.ok (buildOk g (" -t 1-" ++ toString a))
      else Except.error "AssertionError: 1 <= self.arr < 100000"
    else Except.ok (buildOk g "")
  | none => Except.ok (buildOk g "")

/-! ### Scheduler dialect probe (lines 288-291) -/

/-- The version-query command string of `get_grid_engine`. -/
def get_grid_engine_cmd : String := "qsub --version"

/-- Embedding of `get_grid_engine()`. The source runs
`popen(cmd, debug=False).read()` but discards the captured text and tests
`"PBS" in cmd`, i.e. membership in the literal command string; the
captured-output parameter is therefore unused, faithfully to the source. -/
def get_grid_engine (_output : String) : String :=
  if strIn "PBS" get_grid_engine_cmd then "PBS" else "SGE"

/-! ### Job canceller (lines 419-484) -/

/-- Python `str.split(sep)` with a one-character separator. -/
def splitOnChar (sep : Char) : List Char → List (List Char)
  | [] => [[]]
  | c :: rest =>
    if c = sep then [] :: splitOnChar sep rest
    else
      match splitOnChar sep rest with
      | r :: rs => (c :: r) :: rs
      | [] => [[c]]

/-- Python `s.split(",")` over strings. -/
def pySplit (s : String) (sep : Char) : List String :=
  (splitOnChar sep s.data).map String.mk

/-- Modelled from the spec: `is_number` lives in `jcvi.formats.base`, which
is not part of the sources; the spec classifies a sub-token as id-like when
it is "a numeric string", modelled as: nonempty and all digits. -/
def is_number (s : String) : Bool := !s.isEmpty && s.data.all Char.isDigit

/-- Loop body of `guess_method` (lines 419-426): return `"pattern"` at the
first non-numeric comma-separated sub-token, else `"jobid"`. -/
def guessMethodGo : List String → String
  | [] => "jobid"
  | j :: rest => if !is_number j then "pattern" else guessMethodGo rest

/-- Embedding of `guess_method(tag)`. -/
def guess_method (tag : String) : String := guessMethodGo (pySplit tag ',')

/-- The three job-cancellation paths of `kill`. -/
inductive KillAction where
  | cancelAllForUser
  | byJobids (ids : List String)
  | byPattern (tag : String)
deriving DecidableEq

/-- Embedding of the classification control flow of `kill` (lines 455-468),
with no `--method` override given: the token is trimmed; the literal
`"all"` short-circuits to the cancel-all-for-user path before any
classification; otherwise `guess_method` decides between the id-list path
(ids = the comma-separated sub-tokens) and the pattern path. -/
def killClassify (tag : String) : KillAction :=
  let t := pyStrip tag
  if t = "all" then KillAction.cancelAllForUser
  else if guess_method t = "jobid" then KillAction.byJobids (pySplit t ',')
  else KillAction.byPattern t

/-! ### Grid job collection (lines 267-280) -/

/-- Embedding of `Grid.__init__(cmds, outfiles=[])`: assert commands
non-empty; default missing outfiles to one `None` per command; create one
`GridProcess(cmd, outfile=outfile)` per zipped pair (Python `zip`
truncates to the shorter list). -/
def gridInit (cmds : List String) (outfiles : List (Option String)) :
    Except String (List GridProcess) :=
  if cmds.isEmpty then Except.error "Commands empty!"
  else
    let ofs := if outfiles.isEmpty then List.replicate cmds.length (none : Option String)
               else outfiles
    Except.ok ((cmds.zip ofs).map fun p => gpNew p.1 p.2)

/-! ### WriteJobs worker-count clamp (lines 100-110) -/

/-- Embedding of the clamp in `WriteJobs.__init__`: after
`for a in args: workerq.put(a)`, the loop variable `a` holds the LAST
argument tuple, and line 107 computes `cpus = min(cpus, len(a))` — the
length of that last tuple, not the number of inputs. An empty `args` would
raise `NameError` (`a` unbound), hence the hypothesis. -/
def effective_cpus {γ : Type} (cpus : Nat) (args : List (List γ))
    (h : args ≠ []) : Nat :=
  min cpus (args.getLast h).length

/-! ### MakeManager / Dependency (lines 17-61) -/

/-- A Python argument that may be a single string or a list of strings:
the `source`, `target` and `cmds` parameters of `Dependency.__init__` and
`MakeManager.add` accept both shapes. -/
inductive StrOrList where
  | str (s : String)
  | list (xs : List String)
deriving DecidableEq

/-- Modelled from the spec: `listify` (from `jcvi.apps.base`, not in the
sources) coerces a scalar-or-list argument to a list — a scalar becomes a
one-element list, a list is unchanged. -/
def listify : StrOrList → List String
  | StrOrList.str s => [s]
  | StrOrList.list xs => xs

/-- Fields of `Dependency` after `__init__` (lines 21-27), where `listify`
has been applied to the three arguments. -/
structure Dependency where
  source : List String
  target : List String
  cmds : List String
deriving DecidableEq

/-- `Dependency.__init__`: listify the three arguments; with `remove=True`
a deletion command for all targets is prepended. -/
def Dependency.make (source target cmds : StrOrList) (remove : Bool) : Dependency :=
  { source := listify source, target := listify target,
    cmds :=
      if remove then
        ("rm -f " ++ String.intercalate " " (listify target)) :: listify cmds
      else listify cmds }

/-- `Dependency.__str__` (lines 29-35). -/
def Dependency.str (d : Dependency) : String :=
  String.intercalate " " d.target ++ " : " ++ String.intercalate " " d.source
    ++ "\n" ++ String.join (d.cmds.map fun c => "\t" ++ c ++ "\n")

/-- State of a `MakeManager`: the makefile name, the appended dependencies
(the list superclass) and the registered-targets registry. `add` appends
the RAW `target` argument to `self.targets` (no `listify`), so registry
entries are themselves scalar-or-list values. -/
structure MakeManager where
  makefile : String
  deps : List Dependency
  targets : List StrOrList

/-- `MakeManager(filename)`. -/
def MakeManager.new (filename : String) : MakeManager := ⟨filename, [], []⟩

/-- `MakeManager.add` (lines 46-49): append the Dependency and register the
raw target argument. -/
def MakeManager.add (mm : MakeManager) (source target cmds : StrOrList)
    (remove : Bool) : MakeManager :=
  { mm with
      deps := mm.deps ++ [Dependency.make source target cmds remove],
      targets := mm.targets ++ [target] }

/-- Modelled from the spec: `backup` (from `jcvi.apps.base`, not in the
sources) renames an existing file to a backup name before it would be
overwritten; the backup name is modelled as the original name with a
`.bak` suffix (its exact shape is immaterial to the claims). -/
def backupName (fn : String) : String := fn ++ ".bak"

/-- Filesystems are maps from path to content; renaming `fn` to its backup
name moves the content. -/
def fsBackup (fs : String → Option String) (fn : String) : String → Option String :=
  fun p => if p = backupName fn then fs fn else if p = fn then none else fs p

/-- Writing a file stores its content at the path. -/
def fsWrite (fs : String → Option String) (fn content : String) :
    String → Option String :=
  fun p => if p = fn then some content else fs p

/-- Python `" ".join(self.targets)` scans the registry entries in order:
it yields the strings when every entry is a scalar string, and raises
`TypeError` at the first list-valued entry; `none` models that exception. -/
def strTargets : List StrOrList → Option (List String)
  | [] => some []
  | StrOrList.str s :: rest => (strTargets rest).map fun ts => s :: ts
  | StrOrList.list _ :: _ => none

/-- The text `write()` produces on success (lines 57-59), for the joined
scalar targets `ts`: the header `all : <ts>` with a blank line (the format
string's own newline plus the one appended by `print`), then each
Dependency's rendering followed by the `print` newline. -/
def makefileContent (ts : List String) (deps : List Dependency) : String :=
  ("all : " ++ String.intercalate " " ts ++ "\n") ++ "\n"
    ++ String.join (deps.map fun d => d.str ++ "\n")

/-- Embedding of `MakeManager.write()` (lines 51-61): the assertion on an
empty registry fires before any file effect; then the backup of a
pre-existing file at the makefile path, the truncating `open(fn, "w")`,
and the header join — which raises `TypeError` when a registered target
was a list, leaving the truncated file behind — and the serialization.
Errors carry the message and the filesystem as left behind. -/
def MakeManager.write (mm : MakeManager) (fs : String → Option String) :
    Except (String × (String → Option String))
      ((String → Option String) × String) :=
  if mm.targets.isEmpty then Except.error ("No targets specified", fs)
  else
    let fs1 := if (fs mm.makefile).isSome then fsBackup fs mm.makefile else fs
    let fs2 := fsWrite fs1 mm.makefile ""
    match strTargets mm.targets with
    | none =>
      Except.error ("TypeError: sequence item: expected string, list found",
        fs2)
    | some ts =>
      Except.ok (fsWrite fs2 mm.makefile (makefileContent ts mm.deps),
        makefileContent ts mm.deps)

/-! ### Producer-consumer aggregation pipeline (lines 90-154)

`WriteJobs.__init__` seeds a work queue with all inputs followed by one
`Poison` per worker, then starts the workers (`work`, lines 122-129) and
the single writer (`write`, lines 132-154). We embed the concurrent system
as a labelled transition relation over explicit queue states: queues are
FIFO lists (head = next dequeued, enqueue appends); the workers are
symmetric, so the state keeps only the count of still-running workers; the
writer keeps its poison tally and the list of lines written so far. The
`processed` field is a history recording each application of the target
function (line 127), and `written` records the lines printed at line 152
(one result per line; falsy results are skipped by the `elif res:` guard).
The progress bar (lines 139-146) is observability only and is omitted. -/

/-- A work-queue message: a real input or the `Poison` sentinel. -/
inductive WItem (α : Type) where
  | item (a : α)
  | poison
deriving DecidableEq

/-- A result-queue message: a computed result or the `Poison` sentinel. -/
inductive RItem (β : Type) where
  | res (b : β)
  | poison
deriving DecidableEq

/-- Is a work-queue message the sentinel? (`isinstance(a, Poison)`). -/
def WItem.isPoison : WItem α → Bool
  | WItem.poison => true
  | WItem.item _ => false

/-- Extract the input from a work-queue message. -/
def WItem.getItem : WItem α → Option α
  | WItem.item a => some a
  | WItem.poison => none

/-- Is a result-queue message the sentinel? (`isinstance(res, Poison)`). -/
def RItem.isPoison : RItem β → Bool
  | RItem.poison => true
  | RItem.res _ => false

/-- Extract the result from a result-queue message. -/
def RItem.getRes : RItem β → Option β
  | RItem.res b => some b
  | RItem.poison => none

/-- Global state of the pipeline. -/
structure PipeState (α β : Type) where
  workq : List (WItem α)
  outq : List (RItem β)
  running : Nat
  poisons : Nat
  written : List β
  writerDone : Bool
  processed : List α

/-- Initial state after `WriteJobs.__init__` with inputs `args` and
effective worker count `C` (lines 104-113): the work queue holds all
inputs, then exactly `C` poisons; `C` workers are running; the writer has
tallied nothing and written nothing. -/
def initPipe (inputs : List α) (C : Nat) : PipeState α β :=
  { workq := inputs.map WItem.item ++ List.replicate C WItem.poison,
    outq := [], running := C, poisons := 0, written := [],
    writerDone := false, processed := [] }

/-- One transition of the pipeline, for target function `f`, result
truthiness `truthy` (the `elif res:` test) and worker count `C` (the
writer's `cpus` argument). Cases: a running worker dequeues an input,
applies `f` and enqueues the result (lines 124-128); a running worker
dequeues a poison, enqueues one poison and stops (lines 125-126, 129); the
writer dequeues a result and writes it iff truthy (lines 151-153); the
writer dequeues a poison, increments its tally and stops when the tally
reaches `C` (lines 147-150). -/
inductive PipeStep (f : α → β) (truthy : β → Bool) (C : Nat) :
    PipeState α β → PipeState α β → Prop where
  | workerItem (s : PipeState α β) (a : α) (rest : List (WItem α))
      (hrun : 0 < s.running) (hq : s.workq = WItem.item a :: rest) :
      PipeStep f truthy C s
        { s with workq := rest, outq := s.outq ++ [RItem.res (f a)],
                 processed := s.processed ++ [a] }
  | workerPoison (s : PipeState α β) (rest : List (WItem α))
      (hrun : 0 < s.running) (hq : s.workq = WItem.poison :: rest) :
      PipeStep f truthy C s
        { s with workq := rest, running := s.running - 1,
                 outq := s.outq ++ [RItem.poison] }
  | writerRes (s : PipeState α β) (b : β) (rest : List (RItem β))
      (hW : s.writerDone = false) (hq : s.outq = RItem.res b :: rest) :
      PipeStep f truthy C s
        { s with outq := rest,
                 written := if truthy b then s.written ++ [b] else s.written }
  | writerPoison (s : PipeState α β) (rest : List (RItem β))
      (hW : s.writerDone = false) (hq : s.outq = RItem.poison :: rest) :
      PipeStep f truthy C s
        { s with outq := rest, poisons := s.poisons + 1,
                 writerDone := decide (s.poisons + 1 = C) }

/-- A state is terminal when no transition applies (all processes blocked
on empty queues or stopped). -/
def PipeTerminal (f : α → β) (truthy : β → Bool) (C : Nat)
    (s : PipeState α β) : Prop :=
  ∀ s', ¬ PipeStep f truthy C s s'

/-- Number of poisons in a work queue. -/
def countPW (l : List (WItem α)) : Nat := l.countP fun x => WItem.isPoison x

/-- Number of poisons in a result queue. -/
def countPR (l : List (RItem β)) : Nat := l.countP fun x => RItem.isPoison x

/-- The real inputs of a work queue, in order. -/
def wItems (l : List (WItem α)) : List α := l.filterMap WItem.getItem

/-- The real results of a result queue, in order. -/
def rVals (l : List (RItem β)) : List β := l.filterMap RItem.getRes

@[simp] lemma countPW_nil : countPW ([] : List (WItem α)) = 0 := rfl

@[simp] lemma countPW_cons_item (a : α) (l : List (WItem α)) :
    countPW (WItem.item a :: l) = countPW l := by
  simp [countPW, List.countP_cons, WItem.isPoison]

@[simp] lemma countPW_cons_poison (l : List (WItem α)) :
    countPW (WItem.poison :: l) = countPW l + 1 := by
  simp [countPW, List.countP_cons, WItem.isPoison]

@[simp] lemma countPW_append (l1 l2 : List (WItem α)) :
    countPW (l1 ++ l2) = countPW l1 + countPW l2 := by
  simp [countPW, List.countP_append]

@[simp] lemma countPW_map_item (l : List α) :
    countPW (l.map WItem.item) = 0 := by
  induction l with
  | nil => rfl
  | cons a l ih => simp [ih]

@[simp] lemma countPW_replicate_poison (n : Nat) :
    countPW (List.replicate n (WItem.poison : WItem α)) = n := by
  induction n with
  | zero => rfl
  | succ k ih => simp [List.replicate_succ, ih]

@[simp] lemma countPR_nil : countPR ([] : List (RItem β)) = 0 := rfl

@[simp] lemma countPR_cons_res (b : β) (l : List (RItem β)) :
    countPR (RItem.res b :: l) = countPR l := by
  simp [countPR, List.countP_cons, RItem.isPoison]

@[simp] lemma countPR_cons_poison (l : List (RItem β)) :
    countPR (RItem.poison :: l) = countPR l + 1 := by
  simp [countPR, List.countP_cons, RItem.isPoison]

@[simp] lemma countPR_append (l1 l2 : List (RItem β)) :
    countPR (l1 ++ l2) = countPR l1 + countPR l2 := by
  simp [countPR, List.countP_append]

@[simp] lemma wItems_nil : wItems ([] : List (WItem α)) = [] := rfl

@[simp] lemma wItems_cons_item (a : α) (l : List (WItem α)) :
    wItems (WItem.item a :: l) = a :: wItems l := rfl

@[simp] lemma wItems_cons_poison (l : List (WItem α)) :
    wItems (WItem.poison :: l) = wItems l := rfl

@[simp] lemma wItems_append (l1 l2 : List (WItem α)) :
    wItems (l1 ++ l2) = wItems l1 ++ wItems l2 := by
  simp [wItems, List.filterMap_append]

@[simp] lemma wItems_map_item (l : List α) : wItems (l.map WItem.item) = l := by
  induction l with
  | nil => rfl
  | cons a l ih => rw [List.map_cons, wItems_cons_item, ih]

@[simp] lemma wItems_replicate_poison (n : Nat) :
    wItems (List.replicate n (WItem.poison : WItem α)) = [] := by
  induction n with
  | zero => rfl
  | succ k ih => simp [List.replicate_succ, ih]

@[simp] lemma rVals_nil : rVals ([] : List (RItem β)) = [] := rfl

@[simp] lemma rVals_cons_res (b : β) (l : List (RItem β)) :
    rVals (RItem.res b :: l) = b :: rVals l := rfl

@[simp] lemma rVals_cons_poison (l : List (RItem β)) :
    rVals (RItem.poison :: l) = rVals l := rfl

@[simp] lemma rVals_append (l1 l2 : List (RItem β)) :
    rVals (l1 ++ l2) = rVals l1 ++ rVals l2 := by
  simp [rVals, List.filterMap_append]

lemma getLast?_cons_of_ne_nil {x : γ} {l : List γ} (h : l ≠ []) :
    (x :: l).getLast? = l.getLast? := by
  cases l with
  | nil => exact absurd rfl h
  | cons y ys => exact List.getLast?_cons_cons

lemma getLast?_replicate_of_pos {a : γ} {n : Nat} (h : 0 < n) :
    (List.replicate n a).getLast? = some a := by
  induction n with
  | zero => omega
  | succ k ih =>
    cases Nat.eq_zero_or_pos k with
    | inl h0 => subst h0; rfl
    | inr hk =>
      have hne : List.replicate k a ≠ [] := by
        intro hcon
        have := congrArg List.length hcon
        simp at this
        omega
      rw [List.replicate_succ, getLast?_cons_of_ne_nil hne]
      exact ih hk

lemma mem_of_getLast?_eq {l : List γ} {a : γ} (h : l.getLast? = some a) : a ∈ l := by
  obtain ⟨hne, rfl⟩ := List.mem_getLast?_eq_getLast (l := l) (x := a) h
  exact List.getLast_mem hne

/-- The pipeline invariant, parameterized by the target function, the
truthiness predicate, the worker count `C`, and the original input list:
(1) the work queue, a suffix of the seeded queue, ends in a poison while
non-empty; (2) the running-worker count equals the number of poisons still
in the work queue; (3) poisons are conserved across work queue, result
queue and writer tally; (4) the writer is stopped exactly when its tally
reached `C`; (5) processed inputs plus queued inputs are a permutation of
the original inputs; (6) written lines plus truthy results still queued or
still unprocessed are a permutation of all truthy results; (7) once all
workers stopped, the result queue ends in a poison while non-empty. -/
def PipeInv (f : α → β) (truthy : β → Bool) (C : Nat) (inputs : List α)
    (s : PipeState α β) : Prop :=
  (s.workq = [] ∨ s.workq.getLast? = some WItem.poison) ∧
  s.running = countPW s.workq ∧
  countPW s.workq + countPR s.outq + s.poisons = C ∧
  s.writerDone = decide (s.poisons = C) ∧
  List.Perm (s.processed ++ wItems s.workq) inputs ∧
  List.Perm
    (s.written ++ (rVals s.outq).filter truthy
      ++ ((wItems s.workq).map f).filter truthy)
    ((inputs.map f).filter truthy) ∧
  (s.running = 0 → s.outq = [] ∨ s.outq.getLast? = some RItem.poison)

lemma pipeInv_init (f : α → β) (truthy : β → Bool) (inputs : List α)
    {C : Nat} (hC : 0 < C) :
    PipeInv f truthy C inputs (initPipe inputs C : PipeState α β) := by
  have hCne : (0 : Nat) ≠ C := by omega
  have hne : List.replicate C (WItem.poison : WItem α) ≠ [] := by
    intro hcon
    have := congrArg List.length hcon
    simp at this
    omega
  refine ⟨?_, ?_, ?_, ?_, ?_, ?_, ?_⟩
  · right
    show (inputs.map WItem.item ++ List.replicate C WItem.poison).getLast?
        = some WItem.poison
    rw [List.getLast?_append_of_ne_nil _ hne]
    exact getLast?_replicate_of_pos hC
  · simp [initPipe]
  · simp [initPipe]
  · simp [initPipe, hCne]
  · simp [initPipe]
  · simp [initPipe]
  · intro h0
    simp [initPipe] at h0
    omega

lemma pipeInv_step {f : α → β} {truthy : β → Bool} {C : Nat} {inputs : List α}
    {s s' : PipeState α β} (hInv : PipeInv f truthy C inputs s)
    (hstep : PipeStep f truthy C s s') : PipeInv f truthy C inputs s' := by
  obtain ⟨h1, h2, h3, h4, h5, h6, h7⟩ := hInv
  cases hstep with
  | workerItem a rest hrun hq =>
    refine ⟨?_, ?_, ?_, ?_, ?_, ?_, ?_⟩
    · cases rest with
      | nil => exact Or.inl rfl
      | cons y ys =>
        right
        rcases h1 with h1 | h1
        · rw [hq] at h1; cases h1
        · rw [hq, List.getLast?_cons_cons] at h1; exact h1
    · show s.running = countPW rest
      rw [hq] at h2; simpa using h2
    · show countPW rest + countPR (s.outq ++ [RItem.res (f a)]) + s.poisons = C
      rw [hq] at h3
      simp at h3 ⊢
      omega
    · exact h4
    · show List.Perm ((s.processed ++ [a]) ++ wItems rest) inputs
      rw [hq] at h5
      simp at h5
      simpa [List.append_assoc] using h5
    · rw [hq] at h6
      by_cases hfa : truthy (f a)
      · simp [hfa] at h6 ⊢
        simpa [List.append_assoc] using h6
      · simp [hfa] at h6 ⊢
        simpa [List.append_assoc] using h6
    · intro h0
      simp only [] at h0
      omega
  | workerPoison rest hrun hq =>
    refine ⟨?_, ?_, ?_, ?_, ?_, ?_, ?_⟩
    · cases rest with
      | nil => exact Or.inl rfl
      | cons y ys =>
        right
        rcases h1 with h1 | h1
        · rw [hq] at h1; cases h1
        · rw [hq, List.getLast?_cons_cons] at h1; exact h1
    · show s.running - 1 = countPW rest
      rw [hq] at h2; simp at h2; omega
    · show countPW rest + countPR (s.outq ++ [RItem.poison]) + s.poisons = C
      rw [hq] at h3
      simp at h3 ⊢
      omega
    · exact h4
    · rw [hq] at h5
      simpa using h5
    · rw [hq] at h6
      simpa using h6
    · intro _
      right
      simp
  | writerRes b rest hW hq =>
    refine ⟨h1, h2, ?_, h4, h5, ?_, ?_⟩
    · rw [hq] at h3
      simp at h3 ⊢
      omega
    · rw [hq] at h6
      by_cases hb : truthy b
      · simp [hb] at h6 ⊢
        simpa [List.append_assoc] using h6
      · simp [hb] at h6 ⊢
        simpa [List.append_assoc] using h6
    · intro h0
      have h7' := h7 h0
      rcases h7' with h | h
      · rw [hq] at h; cases h
      · rw [hq] at h
        cases rest with
        | nil => simp at h
        | cons y ys =>
          right
          rw [List.getLast?_cons_cons] at h
          exact h
  | writerPoison rest hW hq =>
    refine ⟨h1, h2, ?_, rfl, h5, ?_, ?_⟩
    · show countPW s.workq + countPR rest + (s.poisons + 1) = C
      rw [hq] at h3
      simp at h3
      omega
    · rw [hq] at h6
      simpa using h6
    · intro h0
      have h7' := h7 h0
      rcases h7' with h | h
      · rw [hq] at h; cases h
      · rw [hq] at h
        cases rest with
        | nil => exact Or.inl rfl
        | cons y ys =>
          right
          rw [List.getLast?_cons_cons] at h
          exact h

lemma pipeInv_of_reachable {f : α → β} {truthy : β → Bool} {C : Nat}
    {inputs : List α} {s : PipeState α β} (hC : 0 < C)
    (hreach : Relation.ReflTransGen (PipeStep f truthy C)
      (initPipe inputs C) s) :
    PipeInv f truthy C inputs s := by
  induction hreach with
  | refl => exact pipeInv_init f truthy inputs hC
  | tail _ hstep ih => exact pipeInv_step ih hstep

/-- Claim C1. In the producer-consumer aggregation pipeline over inputs
`inputs` with effective worker count `C > 0`: the work queue is seeded with
all inputs followed by exactly `C` poison sentinels; in every terminal
state reachable from the initial one, all workers have stopped (each
poison dequeue pushed one poison and stopped its worker), the writer has
stopped with its poison tally exactly `C`, both queues are drained, the
target function was applied exactly once to every input (the application
history is a permutation of the inputs), and the written lines are exactly
the truthy results, one line each (a permutation of the truthy-filtered
image of the inputs). -/
theorem writejobs_pipeline_correct (f : α → β) (truthy : β → Bool)
    (inputs : List α) (C : Nat) (hC : 0 < C) (s : PipeState α β)
    (hreach : Relation.ReflTransGen (PipeStep f truthy C)
      (initPipe inputs C) s)
    (hterm : PipeTerminal f truthy C s) :
    (initPipe inputs C : PipeState α β).workq
        = inputs.map WItem.item ++ List.replicate C WItem.poison ∧
    s.running = 0 ∧ s.writerDone = true ∧ s.poisons = C ∧
    s.workq = [] ∧ s.outq = [] ∧
    List.Perm s.processed inputs ∧
    List.Perm s.written ((inputs.map f).filter truthy) := by
  obtain ⟨h1, h2, h3, h4, h5, h6, h7⟩ := pipeInv_of_reachable hC hreach
  have hwq : s.workq = [] := by
    by_contra hne
    have hpois : s.workq.getLast? = some WItem.poison := by
      rcases h1 with h1 | h1
      · exact absurd h1 hne
      · exact h1
    have hpmem : (WItem.poison : WItem α) ∈ s.workq := mem_of_getLast?_eq hpois
    have hcpos : 0 < countPW s.workq :=
      List.countP_pos_iff.mpr ⟨_, hpmem, rfl⟩
    have hrun : 0 < s.running := by omega
    cases hq : s.workq with
    | nil => exact hne hq
    | cons x rest =>
      cases x with
      | item a => exact hterm _ (PipeStep.workerItem s a rest hrun hq)
      | poison => exact hterm _ (PipeStep.workerPoison s rest hrun hq)
  have hrun0 : s.running = 0 := by
    rw [h2, hwq]
    rfl
  have houtq : s.outq = [] := by
    by_contra hne
    cases hq : s.outq with
    | nil => exact hne hq
    | cons y rest =>
      have hWD : s.writerDone = true := by
        by_contra hwd
        have hwd' : s.writerDone = false := by
          revert hwd
          cases s.writerDone <;> simp
        cases y with
        | res b => exact hterm _ (PipeStep.writerRes s b rest hwd' hq)
        | poison => exact hterm _ (PipeStep.writerPoison s rest hwd' hq)
      have hpC : s.poisons = C := by
        rw [h4] at hWD
        exact of_decide_eq_true hWD
      have hcpr : countPR s.outq = 0 := by
        rw [hwq] at h3
        simp at h3
        omega
      rcases h7 hrun0 with h | h
      · exact hne h
      · have hm : (RItem.poison : RItem β) ∈ s.outq := mem_of_getLast?_eq h
        have : 0 < countPR s.outq := List.countP_pos_iff.mpr ⟨_, hm, rfl⟩
        omega
  have hpC : s.poisons = C := by
    rw [hwq, houtq] at h3
    simpa using h3
  have hWD : s.writerDone = true := by
    rw [h4, hpC]
    simp
  refine ⟨rfl, hrun0, hWD, hpC, hwq, houtq, ?_, ?_⟩
  · rw [hwq] at h5
    simpa using h5
  · rw [hwq, houtq] at h6
    simpa using h6

/-- Terminal state of a concrete one-input, one-worker pipeline run used to
witness the pipeline theorem. -/
def pipeWitState : PipeState Nat Nat :=
  { workq := [], outq := [], running := 0, poisons := 1, written := [1],
    writerDone := true, processed := [0] }

/-- Witness for the pipeline theorem: a concrete maximal run with one
input `0`, one worker, `f = (· + 1)` and positivity as truthiness. -/
theorem writejobs_pipeline_correct_witness :
    (0 : Nat) < 1 ∧
    ((initPipe [0] 1 : PipeState Nat Nat).workq
        = [0].map WItem.item ++ List.replicate 1 WItem.poison ∧
      pipeWitState.running = 0 ∧ pipeWitState.writerDone = true ∧
      pipeWitState.poisons = 1 ∧ pipeWitState.workq = [] ∧
      pipeWitState.outq = [] ∧
      List.Perm pipeWitState.processed [0] ∧
      List.Perm pipeWitState.written
        (([0].map fun n => n + 1).filter fun b => decide (0 < b))) := by
  refine ⟨by decide, ?_⟩
  refine writejobs_pipeline_correct (fun n => n + 1) (fun b => decide (0 < b))
    [0] 1 (by decide) pipeWitState ?_ ?_
  · have st1 : PipeStep (fun n : Nat => n + 1) (fun b => decide (0 < b)) 1
        (initPipe [0] 1)
        { workq := [WItem.poison], outq := [RItem.res 1], running := 1,
          poisons := 0, written := [], writerDone := false, processed := [0] } :=
      PipeStep.workerItem _ 0 [WItem.poison] (by decide) rfl
    have st2 : PipeStep (fun n : Nat => n + 1) (fun b => decide (0 < b)) 1
        { workq := [WItem.poison], outq := [RItem.res 1], running := 1,
          poisons := 0, written := [], writerDone := false, processed := [0] }
        { workq := [], outq := [RItem.res 1, RItem.poison], running := 0,
          poisons := 0, written := [], writerDone := false, processed := [0] } :=
      PipeStep.workerPoison _ [] (by decide) rfl
    have st3 : PipeStep (fun n : Nat => n + 1) (fun b => decide (0 < b)) 1
        { workq := [], outq := [RItem.res 1, RItem.poison], running := 0,
          poisons := 0, written := [], writerDone := false, processed := [0] }
        { workq := [], outq := [RItem.poison], running := 0,
          poisons := 0, written := [1], writerDone := false, processed := [0] } :=
      PipeStep.writerRes _ 1 [RItem.poison] rfl rfl
    have st4 : PipeStep (fun n : Nat => n + 1) (fun b => decide (0 < b)) 1
        { workq := [], outq := [RItem.poison], running := 0,
          poisons := 0, written := [1], writerDone := false, processed := [0] }
        pipeWitState :=
      PipeStep.writerPoison _ [] rfl rfl
    exact Relation.ReflTransGen.tail
      (Relation.ReflTransGen.tail
        (Relation.ReflTransGen.tail
          (Relation.ReflTransGen.tail Relation.ReflTransGen.refl st1) st2) st3)
      st4
  · intro s' hstep
    cases hstep <;> simp_all [pipeWitState]

/-- Claim C2 (code defect evaluation): with two one-element argument
tuples and a requested worker count of 2, the clamp of
`WriteJobs.__init__` computes `min(cpus, len(a)) = min(2, 1) = 1` from the
length of the LAST tuple, while the specified invariant
`min(requested, inputCount)` gives `min(2, 2) = 2`. -/
theorem effective_cpus_uses_last_tuple :
    effective_cpus 2 [[(1 : Nat)], [2]] (by decide) = 1 ∧
    min 2 ([[(1 : Nat)], [2]] : List (List Nat)).length = 2 := by
  exact ⟨rfl, rfl⟩

/-- Claim C3: scalar submission output parses to id `"123"`, array
submission output parses to id `"456.1-10:1"`, and the pattern is selected
by the array flag (`pat2` for array, `pat1` for scalar). -/
theorem jobid_extraction_correct :
    selectedPat false = pat1 ∧ selectedPat true = pat2 ∧
    assignJobid false "Your job 123 (\"foo\") has been submitted"
        = Except.ok "123" ∧
    assignJobid true "Your job-array 456.1-10:1 (\"foo\") has been submitted"
        = Except.ok "456.1-10:1" := by
  exact ⟨rfl, rfl, rfl, rfl⟩

/-- Claim C4: empty (or whitespace-only) captured stdout assigns the
sentinel `"-1"` without raising; non-empty stdout that matches neither
pattern propagates as a hard failure (the embedded exception). -/
theorem start_jobid_error_handling (isArr : Bool) (output : String) :
    (pyStrip output = "" → assignJobid isArr output = Except.ok "-1") ∧
    (pyStrip output ≠ "" → searchJobid isArr output = none →
      assignJobid isArr output = Except.error ()) := by
  constructor
  · intro h
    simp [assignJobid, h]
  · intro h hn
    simp [assignJobid, h, hn]

/-- Witness for the jobid error-handling theorem at concrete outputs. -/
theorem start_jobid_error_handling_witness :
    assignJobid false "  " = Except.ok "-1" ∧
    assignJobid true "qsub: submission failed" = Except.error () := by
  constructor
  · exact (start_jobid_error_handling false "  ").1 rfl
  · exact (start_jobid_error_handling true "qsub: submission failed").2
      (by decide) rfl

/-- Claim C7 (code defect evaluation): the dialect probe tests the
distinguishing substring against its own literal command string
`"qsub --version"` instead of the captured output, so it classifies every
installation as `"SGE"` — including one whose captured version banner
contains `"PBS"`. -/
theorem get_grid_engine_ignores_output :
    get_grid_engine "pbs_version = 19.1.3 PBS Professional" = "SGE" ∧
    ∀ output : String, get_grid_engine output = "SGE" := by
  exact ⟨rfl, fun _ => rfl⟩

/-- A job specification with command `ls` and array size `a`. -/
def gpArr (a : Int) : GridProcess := { gpNew "ls" none with arr := some a }

/-- Counterexample to claim C5 as stated: the integer array size `0`
satisfies `a < 1`, yet `build()` does not reject it — Python truthiness
makes `if self.arr:` skip both the assertion and the flag, so the build
succeeds and the synthesized command carries no array flag. -/
theorem build_accepts_arr_zero :
    ((0 : Int) < 1) ∧
    (gpArr 0).build = Except.ok (buildOk (gpArr 0) "") ∧
    strIn " -t " ((buildOk (gpArr 0) "").2) = false := by
  exact ⟨by decide, rfl, rfl⟩

/-- Claim C5 (amended): with `arr = some a`, `build()` fails the assertion
exactly for truthy out-of-range sizes (`a ≠ 0` and `a < 1 ∨ a ≥ 100000`);
for `1 ≤ a < 100000` it succeeds and embeds the token `" -t 1-a"` in the
synthesized command; for `a = 0` it succeeds with no array flag, since
Python truthiness treats `0` as unset. -/
theorem build_arr_range (g : GridProcess) (a : Int) (harr : g.arr = some a) :
    (a ≠ 0 → a < 1 ∨ 100000 ≤ a →
      g.build = Except.error "AssertionError: 1 <= self.arr < 100000") ∧
    (1 ≤ a → a < 100000 →
      g.build = Except.ok (buildOk g (" -t 1-" ++ toString a)) ∧
      ∃ u v, (buildOk g (" -t 1-" ++ toString a)).2
          = u ++ (" -t 1-" ++ toString a) ++ v) ∧
    (a = 0 → g.build = Except.ok (buildOk g "")) := by
  refine ⟨?_, ?_, ?_⟩
  · intro h0 hout
    have hcond : ¬(1 ≤ a ∧ a < 100000) := by omega
    simp [GridProcess.build, harr, h0, hcond]
  · intro h1 h2
    have h0 : a ≠ 0 := by omega
    constructor
    · simp [GridProcess.build, harr, h0, h1, h2]
    · refine ⟨"qsub -P " ++ g.pcode ++ " -cwd" ++ queuePart g ++ threadedPart g,
        concPart g ++ namePart g ++ holdPart g ++ infilePart g ++ outfilePart g
          ++ errfilePart g ++ " " ++ shellWrap g.cmd, ?_⟩
      simp [buildOk, qsubOf, String.append_assoc]
  · intro h0
    simp [GridProcess.build, harr, h0]

/-- Witness for the array-range theorem at `a = 5`. -/
theorem build_arr_range_witness :
    (gpArr 5).build
        = Except.ok (buildOk (gpArr 5) (" -t 1-" ++ toString (5 : Int))) ∧
    ∃ u v, (buildOk (gpArr 5) (" -t 1-" ++ toString (5 : Int))).2
        = u ++ (" -t 1-" ++ toString (5 : Int)) ++ v := by
  exact (build_arr_range (gpArr 5) 5 rfl).2.1 (by decide) (by decide)

/-- A piped command containing both a double quote and a single quote. -/
def bothQuotesCmd : String :=
  "echo \"a\" | grep " ++ String.mk [squote] ++ "b" ++ String.mk [squote]

/-- Counterexample to claim C8 as stated: for a piped command containing
both quote characters, the chosen enclosing quote (the double quote) does
occur in the command — the choice collides with a quote already present. -/
theorem shellwrap_quote_collision :
    hasShellOp bothQuotesCmd = true ∧
    strIn (String.mk [chooseQuote bothQuotesCmd]) bothQuotesCmd = true := by
  exact ⟨rfl, rfl⟩

/-- Claim C8 (amended): every command containing a shell pipe / and / or
operator is wrapped as `sh -c <q><cmd><q>`, where `q` is `"` when the
command contains `'` and `'` otherwise; this choice avoids collision
whenever the command does not contain both quote characters. -/
theorem shellwrap_quote_choice (cmd : String) (hop : hasShellOp cmd = true) :
    shellWrap cmd = "sh -c " ++ String.mk [chooseQuote cmd] ++ cmd
        ++ String.mk [chooseQuote cmd] ∧
    (¬ (strIn (String.mk [squote]) cmd = true ∧ strIn "\"" cmd = true) →
      strIn (String.mk [chooseQuote cmd]) cmd = false) := by
  constructor
  · simp [shellWrap, hop]
  · intro hboth
    by_cases hsq : strIn (String.mk [squote]) cmd = true
    · have hdq : strIn "\"" cmd = false := by
        cases hdq2 : strIn "\"" cmd
        · rfl
        · exact absurd ⟨hsq, hdq2⟩ hboth
      have hch : chooseQuote cmd = '"' := by simp [chooseQuote, hsq]
      rw [hch]
      exact hdq
    · have hch : chooseQuote cmd = squote := by simp [chooseQuote, hsq]
      rw [hch]
      cases h2 : strIn (String.mk [squote]) cmd
      · rfl
      · exact absurd h2 hsq

/-- Witness for the quote-choice theorem at a concrete piped command. -/
theorem shellwrap_quote_choice_witness :
    shellWrap "ls | wc -l" = "sh -c " ++ String.mk [chooseQuote "ls | wc -l"]
        ++ "ls | wc -l" ++ String.mk [chooseQuote "ls | wc -l"] ∧
    strIn (String.mk [chooseQuote "ls | wc -l"]) "ls | wc -l" = false := by
  exact ⟨(shellwrap_quote_choice "ls | wc -l" rfl).1,
         (shellwrap_quote_choice "ls | wc -l" rfl).2 (by decide)⟩

lemma guessMethodGo_eq_jobid (l : List String) :
    guessMethodGo l = "jobid" ↔ ∀ sub ∈ l, is_number sub = true := by
  induction l with
  | nil => simp [guessMethodGo]
  | cons j rest ih =>
    cases hj : is_number j with
    | true => simp [guessMethodGo, hj, ih]
    | false =>
      simp only [guessMethodGo, hj, Bool.not_false, if_pos]
      constructor
      · intro hcon
        exact absurd hcon (by decide)
      · intro hall
        have hmem := hall j (by simp)
        rw [hj] at hmem
        exact absurd hmem (by decide)

/-- Claim C6: the trimmed token `"all"` bypasses classification; any other
token classifies as an id-list exactly when every comma-separated
sub-token is numeric, and as a pattern otherwise; in particular
`"101,102,103"` is an id-list and `"worker_*"` is a pattern. -/
theorem kill_token_classification (tag : String) :
    killClassify "all" = KillAction.cancelAllForUser ∧
    killClassify "101,102,103" = KillAction.byJobids ["101", "102", "103"] ∧
    killClassify "worker_*" = KillAction.byPattern "worker_*" ∧
    (pyStrip tag ≠ "all" →
      (killClassify tag = KillAction.byJobids (pySplit (pyStrip tag) ',') ↔
        ∀ sub ∈ pySplit (pyStrip tag) ',', is_number sub = true)) := by
  refine ⟨rfl, rfl, rfl, ?_⟩
  intro hne
  by_cases hg : guess_method (pyStrip tag) = "jobid"
  · simp [killClassify, hne, hg]
    exact (guessMethodGo_eq_jobid _).mp hg
  · simp [killClassify, hne, hg]
    by_contra hcon
    push_neg at hcon
    simp at hcon
    exact hg ((guessMethodGo_eq_jobid _).mpr hcon)

/-- Witness for the classification theorem at the mixed token `"boo,1"`. -/
theorem kill_token_classification_witness :
    killClassify "boo,1" = KillAction.byJobids (pySplit (pyStrip "boo,1") ',') ↔
      ∀ sub ∈ pySplit (pyStrip "boo,1") ',', is_number sub = true := by
  exact (kill_token_classification "boo,1").2.2.2 (by decide)

/-- A build graph whose single dependency registered a list-valued target
argument (the source listifies it into the Dependency but appends it raw
to the registry). -/
def mmListTgt : MakeManager :=
  (MakeManager.new "makefile").add (StrOrList.str "in.txt")
    (StrOrList.list ["a.out", "b.out"]) (StrOrList.str "touch a.out b.out")
    false

/-- Counterexample to claim C9 as stated: after one `add()` — here with a
list-valued target, which the source accepts — `write()` does not succeed:
the raw list entry in the registry makes the header join raise
`TypeError`, leaving only the truncated makefile behind. -/
theorem makemanager_write_list_target_raises :
    mmListTgt.deps.length = 1 ∧
    mmListTgt.write (fun _ => (none : Option String))
      = Except.error ("TypeError: sequence item: expected string, list found",
          fsWrite (fun _ => (none : Option String)) "makefile" "") := by
  exact ⟨rfl, rfl⟩

/-- Claim C9 (amended): `write()` on an empty registry fails the
precondition (before any file effect); with a non-empty registry whose
registered targets are all scalar strings `ts` (in registration order), it
succeeds: the content begins with the line `all : <ts space-separated>`,
and a pre-existing file at the makefile path is first renamed to the
backup name, its content preserved there; with some list-valued registered
target it instead raises `TypeError` at the header join, leaving the
makefile truncated. -/
theorem makemanager_write_correct (mm : MakeManager)
    (fs : String → Option String) :
    (mm.targets = [] →
      mm.write fs = Except.error ("No targets specified", fs)) ∧
    (mm.targets ≠ [] → ∀ ts, strTargets mm.targets = some ts → ∃ fs2,
      mm.write fs = Except.ok (fs2, makefileContent ts mm.deps) ∧
      fs2 mm.makefile = some (makefileContent ts mm.deps) ∧
      (∃ rest, makefileContent ts mm.deps
          = ("all : " ++ String.intercalate " " ts) ++ "\n" ++ rest) ∧
      (∀ old, fs mm.makefile = some old →
        fs2 (backupName mm.makefile) = some old)) ∧
    (mm.targets ≠ [] → strTargets mm.targets = none →
      mm.write fs = Except.error
        ("TypeError: sequence item: expected string, list found",
          fsWrite (if (fs mm.makefile).isSome then fsBackup fs mm.makefile
            else fs) mm.makefile "")) := by
  refine ⟨?_, ?_, ?_⟩
  · intro h
    simp [MakeManager.write, h]
  · intro hne ts hts
    have hie : mm.targets.isEmpty = false := by
      cases ht : mm.targets with
      | nil => exact absurd ht hne
      | cons a l => rfl
    refine ⟨fsWrite (fsWrite (if (fs mm.makefile).isSome then
        fsBackup fs mm.makefile else fs) mm.makefile "") mm.makefile
        (makefileContent ts mm.deps), ?_, ?_, ?_, ?_⟩
    · simp [MakeManager.write, hie, hts]
    · simp [fsWrite]
    · exact ⟨"\n" ++ String.join (mm.deps.map fun d => d.str ++ "\n"),
        by rw [makefileContent]; simp only [String.append_assoc]⟩
    · intro old hold
      have hbk : backupName mm.makefile ≠ mm.makefile := by
        intro hcon
        have hlen := congrArg String.length hcon
        rw [backupName, String.length_append] at hlen
        have h4 : ".bak".length = 4 := rfl
        omega
      simp [fsWrite, fsBackup, hbk, hold]
  · intro hne hts
    have hie : mm.targets.isEmpty = false := by
      cases ht : mm.targets with
      | nil => exact absurd ht hne
      | cons a l => rfl
    simp [MakeManager.write, hie, hts]

/-- A one-dependency build graph (scalar-string target) for the write()
witness. -/
def mmWit : MakeManager :=
  (MakeManager.new "makefile").add (StrOrList.str "in.txt")
    (StrOrList.str "out.txt") (StrOrList.str "cp in.txt out.txt") false

/-- A filesystem holding a pre-existing makefile for the write() witness. -/
def fsWit : String → Option String :=
  fun p => if p = "makefile" then some "OLD" else none

/-- Witness for the write() theorem: the empty graph errors; the
one-dependency scalar-target graph writes and backs up the pre-existing
file; the list-target graph raises the TypeError. -/
theorem makemanager_write_correct_witness :
    ((MakeManager.new "makefile").write fsWit
        = Except.error ("No targets specified", fsWit)) ∧
    (∃ fs2, mmWit.write fsWit
        = Except.ok (fs2, makefileContent ["out.txt"] mmWit.deps) ∧
      fs2 mmWit.makefile = some (makefileContent ["out.txt"] mmWit.deps) ∧
      (∃ rest, makefileContent ["out.txt"] mmWit.deps
          = ("all : " ++ String.intercalate " " ["out.txt"]) ++ "\n" ++ rest) ∧
      (∀ old, fsWit mmWit.makefile = some old →
        fs2 (backupName mmWit.makefile) = some old)) ∧
    (mmListTgt.write fsWit = Except.error
        ("TypeError: sequence item: expected string, list found",
          fsWrite (if (fsWit mmListTgt.makefile).isSome then
            fsBackup fsWit mmListTgt.makefile else fsWit)
            mmListTgt.makefile "")) := by
  refine ⟨?_, ?_, ?_⟩
  · exact (makemanager_write_correct (MakeManager.new "makefile") fsWit).1 rfl
  · exact (makemanager_write_correct mmWit fsWit).2.1 (by decide) ["out.txt"] rfl
  · exact (makemanager_write_correct mmListTgt fsWit).2.2 (by decide) rfl

/-- Counterexample to claim C10 as stated: two commands with a one-element
outfile list build a Grid of a single job descriptor — `zip` truncation
defeats "exactly one job descriptor per command". -/
theorem grid_init_truncates :
    gridInit ["c1", "c2"] [some "o1"] = Except.ok [gpNew "c1" (some "o1")] ∧
    (["c1", "c2"] : List String).length = 2 := by
  exact ⟨rfl, rfl⟩

/-- Claim C10 (amended): construction from an empty command list fails with
the assertion `"Commands empty!"`; from a non-empty command list it
succeeds, creating one `GridProcess(cmd, outfile)` per zipped
(command, outfile) pair — `min` of the two lengths in general, and exactly
one per command when no outfile list is given or the outfile list is at
least as long as the command list. -/
theorem grid_init_spec (cmds : List String) (outfiles : List (Option String)) :
    (cmds = [] → gridInit cmds outfiles = Except.error "Commands empty!") ∧
    (cmds ≠ [] → ∃ jobs,
      gridInit cmds outfiles = Except.ok jobs ∧
      jobs = (cmds.zip (if outfiles = [] then
          List.replicate cmds.length (none : Option String) else outfiles)).map
          (fun p => gpNew p.1 p.2) ∧
      jobs.length = min cmds.length
          (if outfiles = [] then cmds.length else outfiles.length) ∧
      ((outfiles = [] ∨ cmds.length ≤ outfiles.length) →
        jobs.length = cmds.length)) := by
  constructor
  · intro h
    simp [gridInit, h]
  · intro hne
    have hie : cmds.isEmpty = false := by
      cases hc : cmds with
      | nil => exact absurd hc hne
      | cons a l => rfl
    refine ⟨_, ?_, rfl, ?_, ?_⟩
    · by_cases ho : outfiles = [] <;> simp [gridInit, hie, ho]
    · by_cases ho : outfiles = [] <;> simp [ho, List.length_zip]
    · intro hcase
      by_cases ho : outfiles = []
      · simp [ho, List.length_zip]
      · have hle : cmds.length ≤ outfiles.length := hcase.resolve_left ho
        simp [ho, List.length_zip]
        omega

/-- Witness for the Grid-construction theorem: empty list errors; a
single command with no outfile list yields exactly one descriptor. -/
theorem grid_init_spec_witness :
    gridInit [] [] = Except.error "Commands empty!" ∧
    (∃ jobs, gridInit ["c1"] [] = Except.ok jobs ∧
      jobs = ((["c1"] : List String).zip
          (if ([] : List (Option String)) = [] then
            List.replicate (["c1"] : List String).length (none : Option String)
          else [])).map (fun p => gpNew p.1 p.2) ∧
      jobs.length = min (["c1"] : List String).length
          (if ([] : List (Option String)) = [] then
            (["c1"] : List String).length
          else ([] : List (Option String)).length) ∧
      ((([] : List (Option String)) = [] ∨
          (["c1"] : List String).length ≤ ([] : List (Option String)).length) →
        jobs.length = (["c1"] : List String).length)) := by
  exact ⟨(grid_init_spec [] []).1 rfl, (grid_init_spec ["c1"] []).2 (by decide)⟩

end JcviGrid
